import Mathlib

/-!
Verification of the macOS event-handler core (runtime/bin/eventhandler_macos.cc).

The file shallowly embeds the worker-thread logic of the event handler:
kqueue registration, the descriptor map, interrupt-message dispatch,
event decoding and the worker loop timeout computation.  External effects
(kevent change submissions, port posts, fd closes) are reified as an
`Action` trace; external nondeterminism (the kernel accepting an ADD, the
listening-socket registry verdict, the socket fd) enters as explicit
parameters.  The `DescriptorInfo` subscriber machinery is declared in a
header that is not part of the analysed sources; those definitions are
modelled from the specification (sections 3, 4.3) and are marked as such.
-/

namespace EventHandler

/-! ### Event bits (spec section 6; used verbatim in the source). -/

def kInEvent : Nat := 0
def kOutEvent : Nat := 1
def kErrorEvent : Nat := 2
def kCloseEvent : Nat := 3
def kDestroyedEvent : Nat := 4

/-! ### Descriptor info.

Modelled from the spec: `DescriptorInfoSingle` and `DescriptorInfoMultiple`
are declared in eventhandler.h / eventhandler_macos.h, which are not among
the analysed sources.  Spec section 3 gives the per-fd state (interest mask,
subscriber ports, token balances, kernel-registration flag) and section 4.3
the operations.  Tokens use `Nat`, which encodes invariant I3 directly. -/

inductive DIKind
  | single
  | multiple
  deriving DecidableEq, Repr

structure Subscriber where
  port : Int
  mask : Nat
  tokens : Nat
  deriving DecidableEq, Repr

structure DescriptorInfo where
  fd : Int
  kind : DIKind
  subscribers : List Subscriber
  nextIdx : Nat
  tracked : Bool
  deriving DecidableEq, Repr

def DescriptorInfo.IsListeningSocket (di : DescriptorInfo) : Bool :=
  di.kind == .multiple

/-- Modelled from the spec: the effective mask is the bitwise OR over
subscribers whose tokens are positive, restricted to the IN and OUT bits
(spec section 3). -/
def eventMaskInOut : Nat := (1 <<< kInEvent) ||| (1 <<< kOutEvent)

def DescriptorInfo.Mask (di : DescriptorInfo) : Nat :=
  (di.subscribers.foldl (fun acc s => if 0 < s.tokens then acc ||| s.mask else acc) 0)
    &&& eventMaskInOut

/-- Source: `DescriptorInfo::HasReadEvent` (eventhandler_macos.cc, lines 33-35). -/
def DescriptorInfo.HasReadEvent (di : DescriptorInfo) : Bool :=
  di.Mask &&& (1 <<< kInEvent) != 0

/-- Source: `DescriptorInfo::HasWriteEvent` (eventhandler_macos.cc, lines 37-39). -/
def DescriptorInfo.HasWriteEvent (di : DescriptorInfo) : Bool :=
  di.Mask &&& (1 <<< kOutEvent) != 0

/-- Modelled from the spec: a fresh subscriber starts with a positive token
balance; the spec does not fix the initial value (section 4.3), and no
theorem below depends on it. -/
def kInitialTokens : Nat := 1

/-- Modelled from the spec: `set_port_and_mask` upserts a subscriber; for
single it replaces any prior entry, for multiple it stores per port
(spec section 4.3). -/
def DescriptorInfo.SetPortAndMask (di : DescriptorInfo) (port : Int) (mask : Nat) :
    DescriptorInfo :=
  match di.kind with
  | .single => { di with subscribers := [⟨port, mask, kInitialTokens⟩] }
  | .multiple =>
    if di.subscribers.any (·.port == port) then
      { di with subscribers :=
          di.subscribers.map (fun s => if s.port == port then { s with mask := mask } else s) }
    else
      { di with subscribers := di.subscribers ++ [⟨port, mask, kInitialTokens⟩] }

/-- Modelled from the spec: `return_tokens` increases the token balance of
the given subscriber (spec section 4.3). -/
def DescriptorInfo.ReturnTokens (di : DescriptorInfo) (port : Int) (n : Nat) :
    DescriptorInfo :=
  { di with subscribers :=
      di.subscribers.map (fun s => if s.port == port then { s with tokens := s.tokens + n } else s) }

/-- Modelled from the spec: `remove_port` deletes the subscriber entry
(spec section 4.3). -/
def DescriptorInfo.RemovePort (di : DescriptorInfo) (port : Int) : DescriptorInfo :=
  { di with subscribers := di.subscribers.filter (fun s => s.port != port) }

/-- A multiple-DI subscriber is eligible for a delivered event when its
requested mask intersects the event mask and its tokens are positive
(spec section 4.3). -/
def eligibleFor (mask : Nat) (s : Subscriber) : Bool :=
  decide (0 < s.tokens) && decide (s.mask &&& mask ≠ 0)

/-- Round-robin search: probe positions `idx % n`, `(idx+1) % n`, ... for at
most `fuel` steps, returning the first eligible index. -/
def findEligibleIdx (subs : List Subscriber) (mask : Nat) : Nat → Nat → Option Nat
  | _, 0 => none
  | idx, fuel + 1 =>
    match subs[idx % subs.length]? with
    | some s =>
      if eligibleFor mask s then some (idx % subs.length)
      else findEligibleIdx subs mask (idx + 1) fuel
    | none => none

/-- Modelled from the spec: `next_notify_port(mask)` returns, for single, the
sole subscriber port; for multiple, the next subscriber in round-robin order
whose requested mask intersects `mask` and whose tokens are positive; it
decrements that token balance by one and advances the ring (spec section
4.3).  Single DIs are not throttled (spec section 5).  When no subscriber is
eligible, the result port is 0. -/
def DescriptorInfo.NextNotifyDartPort (di : DescriptorInfo) (mask : Nat) :
    Int × DescriptorInfo :=
  match di.kind with
  | .single =>
    match di.subscribers.head? with
    | some s => (s.port, di)
    | none => (0, di)
  | .multiple =>
    match findEligibleIdx di.subscribers mask di.nextIdx di.subscribers.length with
    | some i =>
      match di.subscribers[i]? with
      | some s =>
        (s.port,
         { di with
             subscribers := di.subscribers.set i { s with tokens := s.tokens - 1 },
             nextIdx := (i + 1) % di.subscribers.length })
      | none => (0, di)
    | none => (0, di)

/-! ### External effects as a trace. -/

inductive KFilter
  | read
  | write
  deriving DecidableEq, Repr

inductive KqOp
  | add (fd : Int) (filter : KFilter) (edgeTriggered : Bool)
  | del (fd : Int) (filter : KFilter)
  deriving DecidableEq, Repr

inductive Action
  | kq (op : KqOp)
  | post (port : Int) (mask : Nat)
  | shutdownRead (fd : Int)
  | shutdownWrite (fd : Int)
  | clearSignalHandler (fd : Int) (isolatePort : Int)
  | diClose (fd : Int)
  | socketCloseFd (fd : Int)
  | fatal
  deriving DecidableEq, Repr

/-- Modelled from the spec: `notify_all(mask)` posts `mask` to every
subscriber and clears their interest (spec section 4.3). -/
def DescriptorInfo.NotifyAllDartPorts (di : DescriptorInfo) (mask : Nat) :
    DescriptorInfo × List Action :=
  ({ di with subscribers := di.subscribers.map (fun s => { s with mask := 0 }) },
   di.subscribers.map (fun s => Action.post s.port mask))

/-! ### Kqueue registration (eventhandler_macos.cc, lines 42-94). -/

/-- Source: `RemoveFromKqueue` (lines 42-53): no-op when untracked,
otherwise submit EV_DELETE for both filters and clear the flag. -/
def RemoveFromKqueue (di : DescriptorInfo) : DescriptorInfo × List Action :=
  if di.tracked then
    ({ di with tracked := false },
     [Action.kq (.del di.fd .read), Action.kq (.del di.fd .write)])
  else (di, [])

/-- The EV_ADD change records submitted by `AddToKqueue` (lines 62-78):
EV_CLEAR (edge-triggered) for non-listening descriptors, one record per
present interest bit. -/
def addChanges (di : DescriptorInfo) : List Action :=
  (if di.HasReadEvent then [Action.kq (.add di.fd .read (!di.IsListeningSocket))] else []) ++
  (if di.HasWriteEvent then [Action.kq (.add di.fd .write (!di.IsListeningSocket))] else [])

/-- Source: `AddToKqueue` (lines 57-94).  `success` is the kernel verdict on
the submitted changes: on success the descriptor becomes tracked; on failure
a CLOSE event is synthesized to all subscribers and the descriptor stays
untracked. -/
def AddToKqueue (success : Bool) (di : DescriptorInfo) : DescriptorInfo × List Action :=
  let changes := addChanges di
  if success then ({ di with tracked := true }, changes)
  else
    let r := di.NotifyAllDartPorts (1 <<< kCloseEvent)
    (r.1, changes ++ r.2)

/-- Source: `EventHandlerImplementation::UpdateKQueueInstance` (lines
147-159). -/
def UpdateKQueueInstance (success : Bool) (oldMask : Nat) (di : DescriptorInfo) :
    DescriptorInfo × List Action :=
  let newMask := di.Mask
  if oldMask ≠ 0 ∧ newMask = 0 then
    RemoveFromKqueue di
  else if oldMask = 0 ∧ newMask ≠ 0 then
    AddToKqueue success di
  else if oldMask ≠ 0 ∧ newMask ≠ 0 ∧ oldMask ≠ newMask then
    let r1 := RemoveFromKqueue di
    let r2 := AddToKqueue success r1.1
    (r2.1, r1.2 ++ r2.2)
  else (di, [])

/-! ### Descriptor map (eventhandler_macos.cc, lines 161-181 and 491-499).

The `SimpleHashMap` is modelled as an association list from the encoded key
to the owned `DescriptorInfo`. -/

/-- Source: `GetHashmapKeyFromFd` (lines 491-494): the map does not support
the zero key, so descriptors are keyed by `fd + 1`. -/
def GetHashmapKeyFromFd (fd : Int) : Int := fd + 1

abbrev SocketMap := List (Int × DescriptorInfo)

def mapFind (m : SocketMap) (k : Int) : Option DescriptorInfo :=
  (m.find? (·.1 == k)).map (·.2)

def mapInsert (m : SocketMap) (k : Int) (di : DescriptorInfo) : SocketMap :=
  (k, di) :: m.filter (·.1 != k)

def mapErase (m : SocketMap) (k : Int) : SocketMap :=
  m.filter (·.1 != k)

def newDescriptorInfo (fd : Int) (isListening : Bool) : DescriptorInfo :=
  if isListening then ⟨fd, .multiple, [], 0, false⟩ else ⟨fd, .single, [], 0, false⟩

/-- Source: `EventHandlerImplementation::GetDescriptorInfo` (lines 161-181):
look up the encoded key; when no value is present, insert a fresh
DescriptorInfo whose kind is decided by `is_listening`; an existing entry is
returned as-is. -/
def GetDescriptorInfo (m : SocketMap) (fd : Int) (isListening : Bool) :
    DescriptorInfo × SocketMap :=
  match mapFind m (GetHashmapKeyFromFd fd) with
  | some di => (di, m)
  | none =>
    let di := newDescriptorInfo fd isListening
    (di, mapInsert m (GetHashmapKeyFromFd fd) di)

/-! ### Interrupt messages (spec sections 3 and 6).

The message layout and command encoding are declared in eventhandler.h,
which is not among the analysed sources. -/

/-- Modelled from the spec: an interrupt message is a fixed three-field
record of an id, a port and a 64-bit data word (spec section 3); its size is
three 64-bit fields. -/
def kInterruptMessageSize : Nat := 24

/-- Modelled from the spec: bits 0..15 of the data word carry the event
bits (spec section 6). -/
def EVENT_MASK : Nat := 0xFFFF

/-- Modelled from the spec: bits 16..31 of the data word carry the token
count (spec section 6). -/
def TOKEN_COUNT (data : Nat) : Nat := (data >>> 16) &&& 0xFFFF

/-- Modelled from the spec: bits 32..39 of the data word carry the command
tag (spec section 6). -/
def commandTag (data : Nat) : Nat := (data >>> 32) &&& 0xFF

/-- Modelled from the spec: the five command tags are distinct; their
numeric values are not specified, so distinct values are chosen here.  Tag 0
is reserved for "no command". -/
def kCloseCommand : Nat := 1
def kShutdownReadCommand : Nat := 2
def kShutdownWriteCommand : Nat := 3
def kReturnTokenCommand : Nat := 4
def kSetEventMaskCommand : Nat := 5

def IS_COMMAND (data : Nat) (cmd : Nat) : Bool := commandTag data == cmd

/-- Modelled from the spec: bit 40 of the data word is the LISTENING flag
(spec section 6). -/
def IS_LISTENING_SOCKET (data : Nat) : Bool := data.testBit 40

/-- Modelled from the spec: bit 41 of the data word is the SIGNAL_SOCKET
flag (spec section 6). -/
def IS_SIGNAL_SOCKET (data : Nat) : Bool := data.testBit 41

/-- Message ids: the two sentinels, or a socket handle.  The socket handle
carries the answers of the external collaborators consulted while the
message is processed: the fd held by the socket object (-1 when already
closed), its isolate port, the registry verdict `close_safe`, and the
kernel verdict on a kqueue ADD issued during the update. -/
inductive MsgId
  | timer
  | shutdownId
  | socket (fd : Int) (isolatePort : Int) (closeSafe : Bool) (addOk : Bool)
  deriving DecidableEq, Repr

structure InterruptMsg where
  id : MsgId
  dartPort : Int
  data : Int
  deriving DecidableEq, Repr

/-! ### Timer queue (spec section 4.5; the queue lives outside the analysed
sources). -/

structure TimerEntry where
  port : Int
  deadline : Int
  deriving DecidableEq, Repr

/-- Modelled from the spec: `update(port, deadline)` inserts or updates when
the deadline is positive and removes the entry otherwise (spec section
4.5). -/
def updateTimeout (timers : List TimerEntry) (port : Int) (deadline : Int) :
    List TimerEntry :=
  let rest := timers.filter (·.port != port)
  if 0 < deadline then ⟨port, deadline⟩ :: rest else rest

/-! ### Worker state and interrupt dispatch
(eventhandler_macos.cc, lines 203-288). -/

structure WorkerState where
  socketMap : SocketMap
  timers : List TimerEntry
  shutdown : Bool
  deriving DecidableEq, Repr

/-- Source: the `kCloseCommand` branch of `HandleInterruptFd` (lines
230-270): optionally clear the signal handler, remove the requesting port,
update the kqueue registration, then destroy the descriptor — always for a
non-listening descriptor, and only upon a positive `CloseSafe` verdict for a
listening one — and post DESTROYED to the requesting port in every case. -/
def closeCommandStep (port iso : Int) (closeSafe aOk sig : Bool)
    (di : DescriptorInfo) (m1 : SocketMap) : SocketMap × List Action :=
  let sigActs := if sig then [Action.clearSignalHandler di.fd iso] else []
  let oldMask := di.Mask
  let di1 := if port != 0 then di.RemovePort port else di
  let u := UpdateKQueueInstance aOk oldMask di1
  let di2 := u.1
  let dfd := di2.fd
  if di2.IsListeningSocket then
    if closeSafe then
      (mapErase m1 (GetHashmapKeyFromFd dfd),
       sigActs ++ u.2 ++
         [Action.diClose dfd, Action.socketCloseFd dfd,
          Action.post port (1 <<< kDestroyedEvent)])
    else
      (mapInsert m1 (GetHashmapKeyFromFd dfd) di2,
       sigActs ++ u.2 ++
         [Action.socketCloseFd dfd, Action.post port (1 <<< kDestroyedEvent)])
  else
    (mapErase m1 (GetHashmapKeyFromFd dfd),
     sigActs ++ u.2 ++
       [Action.diClose dfd, Action.socketCloseFd dfd,
        Action.post port (1 <<< kDestroyedEvent)])

/-- Source: the per-message body of `HandleInterruptFd` (lines 208-287).
The result is the new state, the trace of external effects, and whether the
worker survives (`false` only for the UNREACHABLE default branch). -/
def handleInterruptMessage (msg : InterruptMsg) (st : WorkerState) :
    WorkerState × List Action × Bool :=
  match msg.id with
  | .timer => ({ st with timers := updateTimeout st.timers msg.dartPort msg.data }, [], true)
  | .shutdownId => ({ st with shutdown := true }, [], true)
  | .socket fd isolatePort closeSafe addOk =>
    if fd == -1 then (st, [], true)
    else
      let d := msg.data.toNat
      let r := GetDescriptorInfo st.socketMap fd (IS_LISTENING_SOCKET d)
      let di := r.1
      let m1 := r.2
      if IS_COMMAND d kShutdownReadCommand then
        ({ st with socketMap := m1 }, [Action.shutdownRead di.fd], true)
      else if IS_COMMAND d kShutdownWriteCommand then
        ({ st with socketMap := m1 }, [Action.shutdownWrite di.fd], true)
      else if IS_COMMAND d kCloseCommand then
        let c := closeCommandStep msg.dartPort isolatePort closeSafe addOk
          (IS_SIGNAL_SOCKET d) di m1
        ({ st with socketMap := c.1 }, c.2, true)
      else if IS_COMMAND d kReturnTokenCommand then
        let oldMask := di.Mask
        let di1 := di.ReturnTokens msg.dartPort (TOKEN_COUNT d)
        let u := UpdateKQueueInstance addOk oldMask di1
        ({ st with socketMap := mapInsert m1 (GetHashmapKeyFromFd u.1.fd) u.1 }, u.2, true)
      else if IS_COMMAND d kSetEventMaskCommand then
        let oldMask := di.Mask
        let di1 := di.SetPortAndMask msg.dartPort (d &&& EVENT_MASK)
        let u := UpdateKQueueInstance addOk oldMask di1
        ({ st with socketMap := mapInsert m1 (GetHashmapKeyFromFd u.1.fd) u.1 }, u.2, true)
      else (st, [Action.fatal], false)

def processMessages : List InterruptMsg → WorkerState → WorkerState × List Action × Bool
  | [], st => (st, [], true)
  | m :: rest, st =>
    let r := handleInterruptMessage m st
    if r.2.2 then
      let r2 := processMessages rest r.1
      (r2.1, r.2.1 ++ r2.2.1, r2.2.2)
    else (r.1, r.2.1, false)

/-- Source line 204: `MAX_MESSAGES = kInterruptMessageSize`, so the read
capacity is `kInterruptMessageSize * kInterruptMessageSize` bytes. -/
def interruptReadCapacity : Nat := kInterruptMessageSize * kInterruptMessageSize

/-- Source: `EventHandlerImplementation::HandleInterruptFd` (lines 203-288).
`bytes` is the byte count returned by the pipe read and `msgs` the complete
messages sitting in the buffer; the loop processes `bytes` divided by the
message size of them and silently ignores any trailing fragment. -/
def HandleInterruptFd (bytes : Nat) (msgs : List InterruptMsg) (st : WorkerState) :
    WorkerState × List Action × Bool :=
  processMessages (msgs.take (bytes / kInterruptMessageSize)) st

/-! ### Event decoding (eventhandler_macos.cc, lines 327-374). -/

/-- A kevent record as observed by `GetEvents` and `HandleEvents`: the
filter, the EV_EOF and EV_ERROR flag bits, and the fflags word. -/
structure KEv where
  filter : KFilter
  eof : Bool
  errorFlag : Bool
  fflags : Nat
  deriving DecidableEq, Repr

/-- Source: `EventHandlerImplementation::GetEvents` (lines 327-374).
`none` is the UNREACHABLE branch (a write filter on a listening socket). -/
def GetEvents (isListening : Bool) (ev : KEv) : Option Nat :=
  if isListening then
    match ev.filter with
    | .read =>
      let em : Nat :=
        if ev.eof then
          (if ev.fflags ≠ 0 then 1 <<< kErrorEvent else 1 <<< kCloseEvent)
        else 0
      some (if em = 0 then em ||| (1 <<< kInEvent) else em)
    | .write => none
  else
    match ev.filter with
    | .read =>
      let em : Nat := 1 <<< kInEvent
      some (if ev.eof then
              (if ev.fflags ≠ 0 then 1 <<< kErrorEvent else em ||| (1 <<< kCloseEvent))
            else em)
    | .write =>
      let em : Nat := 1 <<< kOutEvent
      some (if ev.eof then (if ev.fflags ≠ 0 then 1 <<< kErrorEvent else em) else em)

/-! ### Readiness batch handling (eventhandler_macos.cc, lines 376-408). -/

/-- One entry of a kevent batch: the record itself, the udata field (the fd
of the registered descriptor, or `none` for the wakeup pipe), and the kernel
verdict on any kqueue ADD issued while processing this entry. -/
structure BatchEvent where
  ev : KEv
  udata : Option Int
  addOk : Bool
  deriving DecidableEq, Repr

/-- Source: the per-descriptor body of `HandleEvents` (lines 389-400).
An absent map entry cannot occur in the source, where udata is a live
DescriptorInfo pointer; the model skips such an entry. -/
def dispatchReadiness (e : BatchEvent) (difd : Int) (st : WorkerState) :
    WorkerState × List Action × Bool :=
  match mapFind st.socketMap (GetHashmapKeyFromFd difd) with
  | none => (st, [], true)
  | some di =>
    let oldMask := di.Mask
    match GetEvents di.IsListeningSocket e.ev with
    | none => (st, [Action.fatal], false)
    | some em =>
      if em &&& (1 <<< kErrorEvent) != 0 then
        let n := di.NotifyAllDartPorts em
        let u := UpdateKQueueInstance e.addOk oldMask n.1
        ({ st with socketMap := mapInsert st.socketMap (GetHashmapKeyFromFd difd) u.1 },
         n.2 ++ u.2, true)
      else if em != 0 then
        let p := di.NextNotifyDartPort em
        let u := UpdateKQueueInstance e.addOk oldMask p.2
        ({ st with socketMap := mapInsert st.socketMap (GetHashmapKeyFromFd difd) u.1 },
         u.2 ++ [Action.post p.1 em], true)
      else (st, [], true)

/-- Source: the loop of `HandleEvents` (lines 376-408): an EV_ERROR flag is
fatal; a null udata only records that the wakeup pipe fired; descriptor
events are dispatched in order; the wakeup pipe is drained after the whole
batch. -/
def handleEventsLoop (bytes : Nat) (msgs : List InterruptMsg) :
    List BatchEvent → WorkerState → Bool → WorkerState × List Action × Bool
  | [], st, seen =>
    if seen then HandleInterruptFd bytes msgs st else (st, [], true)
  | e :: rest, st, seen =>
    if e.ev.errorFlag then (st, [Action.fatal], false)
    else
      match e.udata with
      | none => handleEventsLoop bytes msgs rest st true
      | some difd =>
        let r := dispatchReadiness e difd st
        if r.2.2 then
          let r2 := handleEventsLoop bytes msgs rest r.1 seen
          (r2.1, r.2.1 ++ r2.2.1, r2.2.2)
        else (r.1, r.2.1, false)

/-- Source: `EventHandlerImplementation::HandleEvents` (lines 376-408). -/
def HandleEvents (events : List BatchEvent) (bytes : Nat) (msgs : List InterruptMsg)
    (st : WorkerState) : WorkerState × List Action × Bool :=
  handleEventsLoop bytes msgs events st false

/-- The readiness-only phase: processes descriptor events exactly as the
loop does, never drains the wakeup pipe, and reports whether a null udata
was seen.  Used to state that interrupts are handled strictly after the
readiness events of the batch. -/
def readinessPhase : List BatchEvent → WorkerState → WorkerState × List Action × Bool × Bool
  | [], st => (st, [], true, false)
  | e :: rest, st =>
    if e.ev.errorFlag then (st, [Action.fatal], false, false)
    else
      match e.udata with
      | none =>
        let r := readinessPhase rest st
        (r.1, r.2.1, r.2.2.1, true)
      | some difd =>
        let r := dispatchReadiness e difd st
        if r.2.2 then
          let r2 := readinessPhase rest r.1
          (r2.1, r.2.1 ++ r2.2.1, r2.2.2.1, r2.2.2.2)
        else (r.1, r.2.1, false, false)

/-! ### Worker loop timeout (eventhandler_macos.cc, lines 410-417 and
437-453). -/

/-- Declared in eventhandler.h (outside the analysed sources); the source
asserts it is negative. -/
def kInfinityTimeout : Int := -1

def kMaxInt32 : Int := 2147483647

/-- Source: `EventHandlerImplementation::GetTimeout` (lines 410-417).  The
timer queue is abstracted by whether it has an entry and by the earliest
deadline. -/
def GetTimeout (hasTimeout : Bool) (currentTimeout now : Int) : Int :=
  if !hasTimeout then kInfinityTimeout
  else
    let millis := currentTimeout - now
    if millis < 0 then 0 else millis

/-- Source: the timeout preparation in `EventHandlerEntry` (lines 437-453):
clamp to kMaxInt32 and pass no timespec (infinite block) exactly for a
negative value. -/
def keventTimeoutMillis (hasTimeout : Bool) (currentTimeout now : Int) : Option Int :=
  let millis := GetTimeout hasTimeout currentTimeout now
  let millis := if millis > kMaxInt32 then kMaxInt32 else millis
  if millis ≥ 0 then some millis else none

/-! ### Invariants (spec sections 3 and 8). -/

/-- Invariant I1 at a quiescent point: tracked iff the effective mask is
non-zero. -/
def MaskInv (di : DescriptorInfo) : Prop :=
  di.tracked = (di.Mask != 0)

instance (di : DescriptorInfo) : Decidable (MaskInv di) := by
  unfold MaskInv; infer_instance

/-- Invariant I1 for every descriptor in the map. -/
def MapInv (m : SocketMap) : Prop :=
  ∀ e ∈ m, MaskInv e.2

instance (m : SocketMap) : Decidable (MapInv m) :=
  List.decidableBAll _ m

/-- Map well-formedness: every entry is keyed by the encoded fd of the
descriptor it holds. -/
def MapWf (m : SocketMap) : Prop :=
  ∀ e ∈ m, GetHashmapKeyFromFd e.2.fd = e.1

instance (m : SocketMap) : Decidable (MapWf m) :=
  List.decidableBAll _ m

/-! ### Helper lemmas. -/

theorem foldl_lor_of_zero_masks (l : List Subscriber) (acc : Nat)
    (h : ∀ s ∈ l, s.mask = 0) :
    l.foldl (fun acc s => if 0 < s.tokens then acc ||| s.mask else acc) acc = acc := by
  induction l generalizing acc with
  | nil => rfl
  | cons a t ih =>
    have ha : a.mask = 0 := h a (List.mem_cons_self _ _)
    have ht : ∀ s ∈ t, s.mask = 0 := fun s hs => h s (List.mem_cons_of_mem _ hs)
    have hstep : (if 0 < a.tokens then acc ||| a.mask else acc) = acc := by
      rw [ha]
      split <;> simp
    simp only [List.foldl_cons, hstep]
    exact ih acc ht

theorem NotifyAllDartPorts_mask (di : DescriptorInfo) (m : Nat) :
    (di.NotifyAllDartPorts m).1.Mask = 0 := by
  unfold DescriptorInfo.NotifyAllDartPorts DescriptorInfo.Mask
  rw [foldl_lor_of_zero_masks]
  · exact Nat.zero_and _
  · intro s hs
    rcases List.mem_map.1 hs with ⟨s0, _, rfl⟩
    rfl

theorem NotifyAllDartPorts_tracked (di : DescriptorInfo) (m : Nat) :
    (di.NotifyAllDartPorts m).1.tracked = di.tracked := rfl

theorem RemoveFromKqueue_tracked (di : DescriptorInfo) :
    (RemoveFromKqueue di).1.tracked = false := by
  unfold RemoveFromKqueue
  split
  · rfl
  · next h => simpa using h

theorem RemoveFromKqueue_mask (di : DescriptorInfo) :
    (RemoveFromKqueue di).1.Mask = di.Mask := by
  unfold RemoveFromKqueue
  split <;> rfl

theorem RemoveFromKqueue_fd (di : DescriptorInfo) :
    (RemoveFromKqueue di).1.fd = di.fd := by
  unfold RemoveFromKqueue
  split <;> rfl

theorem RemoveFromKqueue_kind (di : DescriptorInfo) :
    (RemoveFromKqueue di).1.kind = di.kind := by
  unfold RemoveFromKqueue
  split <;> rfl

theorem addChanges_tracked (di : DescriptorInfo) (b : Bool) :
    addChanges { di with tracked := b } = addChanges di := rfl

/-! ### C6: event decoding for a non-listening READ event. -/

/-- C6: for a kernel readiness event on a non-listening fd with filter READ,
the decoded mask is IN when EOF is clear; IN plus CLOSE when EOF is set with
zero fflags; and exactly ERROR (replacing IN) when EOF is set with non-zero
fflags. -/
theorem getEventsNonListeningRead :
    (∀ e f, GetEvents false ⟨.read, false, e, f⟩ = some (1 <<< kInEvent)) ∧
    (∀ e, GetEvents false ⟨.read, true, e, 0⟩ =
      some ((1 <<< kInEvent) ||| (1 <<< kCloseEvent))) ∧
    (∀ e f, f ≠ 0 → GetEvents false ⟨.read, true, e, f⟩ = some (1 <<< kErrorEvent)) := by
  refine ⟨fun e f => rfl, fun e => rfl, fun e f hf => ?_⟩
  simp [GetEvents, hf]

/-- Witness for C6 at concrete flag values. -/
theorem getEventsNonListeningRead_witness :
    GetEvents false ⟨.read, true, false, 2⟩ = some (1 <<< kErrorEvent) :=
  getEventsNonListeningRead.2.2 false 2 (by decide)

/-! ### C8: the worker-loop blocking timeout. -/

/-- C8: on every worker-loop iteration the kevent timeout is
`max 0 (min (deadline - now) kMaxInt32)` milliseconds when a timer exists
and infinite (no timespec) otherwise. -/
theorem keventTimeoutSpec :
    ∀ hasTimeout currentTimeout now,
      keventTimeoutMillis hasTimeout currentTimeout now =
        if hasTimeout then some (max 0 (min (currentTimeout - now) kMaxInt32)) else none := by
  intro h ct now
  cases h <;>
    simp only [keventTimeoutMillis, GetTimeout, kInfinityTimeout, kMaxInt32,
      Bool.not_true, Bool.not_false, if_true, if_false, Bool.false_eq_true] <;>
    split_ifs <;> simp_all <;> omega

/-! ### C2: the kqueue update procedure, corrected. -/

def diC2 : DescriptorInfo := ⟨5, .single, [⟨7, 1, 1⟩], 0, true⟩

/-- C2 counterexample: for a tracked descriptor whose effective mask is
unchanged and non-zero (`old = new = 1`), `UpdateKQueueInstance` performs no
kernel operation at all, contradicting the claim that the filters are
deleted and re-added also when `old == new`. -/
theorem updateKQueueSameMaskNoop :
    diC2.Mask = 1 ∧ diC2.tracked = true ∧
    UpdateKQueueInstance true diC2.Mask diC2 = (diC2, []) := by
  decide

/-- C2 amended: when `old = 0` and `new = 0` nothing is done; when `old = 0`
and `new ≠ 0` the filters for the new mask are added; when `old ≠ 0` and
`new = 0` both filters are deleted; when `old ≠ 0`, `new ≠ 0` and
`old ≠ new` the filters are deleted and re-added; and when `old = new ≠ 0`
nothing is done (the source requires `old_mask != new_mask` for the
re-registration branch). -/
theorem updateKQueueCases :
    ∀ old (di : DescriptorInfo), (di.tracked = true ↔ old ≠ 0) →
      ((old = 0 ∧ di.Mask = 0) → UpdateKQueueInstance true old di = (di, [])) ∧
      ((old = 0 ∧ di.Mask ≠ 0) →
        (UpdateKQueueInstance true old di).2 = addChanges di) ∧
      ((old ≠ 0 ∧ di.Mask = 0) →
        (UpdateKQueueInstance true old di).2 =
          [Action.kq (.del di.fd .read), Action.kq (.del di.fd .write)]) ∧
      ((old ≠ 0 ∧ di.Mask ≠ 0 ∧ old ≠ di.Mask) →
        (UpdateKQueueInstance true old di).2 =
          [Action.kq (.del di.fd .read), Action.kq (.del di.fd .write)] ++ addChanges di) ∧
      ((old ≠ 0 ∧ old = di.Mask) → UpdateKQueueInstance true old di = (di, [])) := by
  intro old di htr
  refine ⟨?_, ?_, ?_, ?_, ?_⟩ <;> intro hc
  · simp only [UpdateKQueueInstance]
    split_ifs <;> simp_all
  · simp only [UpdateKQueueInstance, AddToKqueue]
    split_ifs <;> simp_all
  · have ht : di.tracked = true := htr.2 hc.1
    simp only [UpdateKQueueInstance]
    split_ifs
    simp_all [RemoveFromKqueue]
  · have ht : di.tracked = true := htr.2 hc.1
    simp only [UpdateKQueueInstance]
    split_ifs <;> simp_all [RemoveFromKqueue, AddToKqueue, addChanges_tracked]
  · have hne : di.Mask ≠ 0 := hc.2 ▸ hc.1
    simp only [UpdateKQueueInstance]
    split_ifs <;> simp_all

/-- Witness for C2 amended at a concrete tracked descriptor. -/
theorem updateKQueueCases_witness :
    (UpdateKQueueInstance true 2 ⟨4, .single, [⟨9, 1, 1⟩], 0, true⟩).2 =
      [Action.kq (.del 4 .read), Action.kq (.del 4 .write)] ++
        addChanges ⟨4, .single, [⟨9, 1, 1⟩], 0, true⟩ :=
  (updateKQueueCases 2 ⟨4, .single, [⟨9, 1, 1⟩], 0, true⟩ (by decide)).2.2.2.1
    (by decide)

/-! ### C5: draining the wakeup channel, corrected. -/

def wsC5 : WorkerState := ⟨[], [], false⟩

/-- C5 counterexample: a read of 25 bytes (not a multiple of the 24-byte
message size) does not abort: the handler processes the single complete
message and survives, silently ignoring the trailing byte. -/
theorem drainFragmentNoAbort :
    25 % kInterruptMessageSize ≠ 0 ∧
    HandleInterruptFd 25 [⟨.shutdownId, 0, 0⟩] wsC5 =
      (⟨[], [], true⟩, [], true) := by
  decide

/-- C5 amended: the worker reads at most
`kInterruptMessageSize * kInterruptMessageSize` bytes per drain (so
`K = kInterruptMessageSize ≥ 1`), and processes exactly the complete
messages in the bytes read: a byte count that is not a multiple of the
message size behaves like the rounded-down multiple instead of aborting. -/
theorem drainBatchSpec :
    (interruptReadCapacity = kInterruptMessageSize * kInterruptMessageSize ∧
      1 ≤ kInterruptMessageSize) ∧
    ∀ bytes msgs st,
      HandleInterruptFd bytes msgs st =
        HandleInterruptFd (kInterruptMessageSize * (bytes / kInterruptMessageSize)) msgs st := by
  refine ⟨⟨rfl, by decide⟩, fun bytes msgs st => ?_⟩
  unfold HandleInterruptFd
  have h : kInterruptMessageSize * (bytes / kInterruptMessageSize) / kInterruptMessageSize =
      bytes / kInterruptMessageSize := by
    unfold kInterruptMessageSize
    omega
  rw [h]

/-! ### Map lemmas. -/

theorem mapFind_some (m : SocketMap) (k : Int) (di : DescriptorInfo)
    (h : mapFind m k = some di) : ∃ e ∈ m, e.1 = k ∧ e.2 = di := by
  unfold mapFind at h
  rcases Option.map_eq_some'.1 h with ⟨e, he, hdi⟩
  exact ⟨e, List.mem_of_find?_eq_some he, by simpa using List.find?_some he, hdi⟩

theorem mapFind_insert (m : SocketMap) (k : Int) (di : DescriptorInfo) :
    mapFind (mapInsert m k di) k = some di := by
  simp [mapFind, mapInsert, List.find?_cons]

theorem mapFind_erase (m : SocketMap) (k : Int) :
    mapFind (mapErase m k) k = none := by
  unfold mapFind mapErase
  rw [Option.map_eq_none']
  rw [List.find?_eq_none]
  intro e he
  have := (List.mem_filter.1 he).2
  simpa using this

/-! ### C10: `GetDescriptorInfo` returns the fd it was asked for and
ignores `is_listening` for an existing entry. -/

/-- C10: for a well-formed map and a non-negative fd, the descriptor
returned by `GetDescriptorInfo` has the requested fd; when an entry already
exists it is returned unchanged with the map untouched, independently of
`is_listening` — so the single-versus-multiple kind of a descriptor is fixed
by whichever call first created it. -/
theorem getDescriptorInfoSpec :
    ∀ (m : SocketMap) (fd : Int) (isL : Bool), 0 ≤ fd → MapWf m →
      (GetDescriptorInfo m fd isL).1.fd = fd ∧
      (∀ di, mapFind m (GetHashmapKeyFromFd fd) = some di →
        ∀ isL2, GetDescriptorInfo m fd isL2 = (di, m)) := by
  intro m fd isL _ hwf
  constructor
  · unfold GetDescriptorInfo
    cases h : mapFind m (GetHashmapKeyFromFd fd) with
    | none => cases isL <;> rfl
    | some di =>
      rcases mapFind_some m _ di h with ⟨e, hem, hk, hdi⟩
      have h1 := hwf e hem
      simp only [GetHashmapKeyFromFd] at h1 hk
      have h2 : di.fd + 1 = e.1 := by rw [← hdi]; exact h1
      show di.fd = fd
      omega
  · intro di h isL2
    unfold GetDescriptorInfo
    rw [h]

/-- Witness for C10 on a concrete one-entry map. -/
theorem getDescriptorInfoSpec_witness :
    (GetDescriptorInfo [(6, ⟨5, .single, [], 0, false⟩)] 5 true).1.fd = 5 ∧
    GetDescriptorInfo [(6, ⟨5, .single, [], 0, false⟩)] 5 true =
      (⟨5, .single, [], 0, false⟩, [(6, ⟨5, .single, [], 0, false⟩)]) :=
  ⟨(getDescriptorInfoSpec [(6, ⟨5, .single, [], 0, false⟩)] 5 true (by decide)
      (by decide)).1,
   (getDescriptorInfoSpec [(6, ⟨5, .single, [], 0, false⟩)] 5 false (by decide)
      (by decide)).2 ⟨5, .single, [], 0, false⟩ (by decide) true⟩

/-! ### C7: a kqueue ADD the kernel rejects. -/

/-- C7: when the kernel rejects the ADD of the filters of a descriptor,
`AddToKqueue` posts the CLOSE event mask to every subscriber port, leaves
the descriptor untracked, and does not abort. -/
theorem addToKqueueFailureClose :
    ∀ di : DescriptorInfo, di.tracked = false →
      (AddToKqueue false di).2 =
        addChanges di ++ di.subscribers.map (fun s => Action.post s.port (1 <<< kCloseEvent)) ∧
      (∀ s ∈ di.subscribers,
        Action.post s.port (1 <<< kCloseEvent) ∈ (AddToKqueue false di).2) ∧
      (AddToKqueue false di).1.tracked = false ∧
      Action.fatal ∉ (AddToKqueue false di).2 := by
  intro di htr
  have hacts : (AddToKqueue false di).2 =
      addChanges di ++ di.subscribers.map (fun s => Action.post s.port (1 <<< kCloseEvent)) := by
    simp [AddToKqueue, DescriptorInfo.NotifyAllDartPorts]
  refine ⟨hacts, ?_, ?_, ?_⟩
  · intro s hs
    rw [hacts]
    exact List.mem_append_right _ (List.mem_map.2 ⟨s, hs, rfl⟩)
  · simp [AddToKqueue, DescriptorInfo.NotifyAllDartPorts, htr]
  · rw [hacts]
    intro hmem
    rcases List.mem_append.1 hmem with hmem | hmem
    · unfold addChanges at hmem
      rcases List.mem_append.1 hmem with hmem | hmem <;>
        · split at hmem <;> simp_all
    · rcases List.mem_map.1 hmem with ⟨s, _, hbad⟩
      exact Action.noConfusion hbad

/-- Witness for C7 at a concrete untracked multiple descriptor. -/
theorem addToKqueueFailureClose_witness :
    (AddToKqueue false ⟨3, .multiple, [⟨9, 1, 1⟩, ⟨11, 1, 1⟩], 0, false⟩).1.tracked = false ∧
    Action.fatal ∉ (AddToKqueue false ⟨3, .multiple, [⟨9, 1, 1⟩, ⟨11, 1, 1⟩], 0, false⟩).2 :=
  ⟨(addToKqueueFailureClose ⟨3, .multiple, [⟨9, 1, 1⟩, ⟨11, 1, 1⟩], 0, false⟩ rfl).2.2.1,
   (addToKqueueFailureClose ⟨3, .multiple, [⟨9, 1, 1⟩, ⟨11, 1, 1⟩], 0, false⟩ rfl).2.2.2⟩

/-! ### C9: within a batch, readiness events are processed before interrupt
commands. -/

theorem handleEventsLoop_phase (bytes : Nat) (msgs : List InterruptMsg) :
    ∀ (events : List BatchEvent) (st : WorkerState) (seen : Bool),
      handleEventsLoop bytes msgs events st seen =
        (let r := readinessPhase events st
         if r.2.2.1 && (seen || r.2.2.2) then
           let d := HandleInterruptFd bytes msgs r.1
           (d.1, r.2.1 ++ d.2.1, d.2.2)
         else (r.1, r.2.1, r.2.2.1)) := by
  intro events
  induction events with
  | nil =>
    intro st seen
    cases seen <;> simp [handleEventsLoop, readinessPhase]
  | cons e rest ih =>
    intro st seen
    by_cases herr : e.ev.errorFlag
    · simp [handleEventsLoop, readinessPhase, herr]
    · cases hud : e.udata with
      | none =>
        simp only [handleEventsLoop, readinessPhase, herr, hud, Bool.false_eq_true,
          if_false, Bool.or_true]
        rw [ih]
        cases halive : (readinessPhase rest st).2.2.1 <;> simp [halive]
      | some difd =>
        simp only [handleEventsLoop, readinessPhase, herr, hud, Bool.false_eq_true,
          if_false]
        by_cases halive : (dispatchReadiness e difd st).2.2 = true
        · simp only [halive, if_true]
          rw [ih]
          cases hal2 : (readinessPhase rest (dispatchReadiness e difd st).1).2.2.1 <;>
            cases hseen : (seen || (readinessPhase rest (dispatchReadiness e difd st).1).2.2.2) <;>
              simp [hal2, hseen, List.append_assoc]
        · simp only [Bool.not_eq_true] at halive
          simp [halive]

/-- C9: the batch handler equals the two-phase decomposition: first all
readiness events of the batch are dispatched (never touching the wakeup
channel), and only afterwards — when a null-udata entry was seen and the
loop did not die — is the wakeup channel drained, its commands applied to
the post-readiness state and its effects appended after all readiness
effects.  A CLOSE or any other interrupt command is therefore never applied
before the readiness events of the same batch are finished. -/
theorem handleEventsReadinessFirst :
    ∀ (events : List BatchEvent) (bytes : Nat) (msgs : List InterruptMsg) (st : WorkerState),
      HandleEvents events bytes msgs st =
        (let r := readinessPhase events st
         if r.2.2.1 && r.2.2.2 then
           let d := HandleInterruptFd bytes msgs r.1
           (d.1, r.2.1 ++ d.2.1, d.2.2)
         else (r.1, r.2.1, r.2.2.1)) := by
  intro events bytes msgs st
  unfold HandleEvents
  rw [handleEventsLoop_phase]
  simp

/-! ### C4: eligibility of the subscriber chosen by `next_notify_port`. -/

theorem findEligibleIdx_sound (subs : List Subscriber) (mask : Nat) :
    ∀ (fuel idx i : Nat), findEligibleIdx subs mask idx fuel = some i →
      ∃ s, subs[i]? = some s ∧ eligibleFor mask s = true := by
  intro fuel
  induction fuel with
  | zero =>
    intro idx i h
    exact absurd h (by simp [findEligibleIdx])
  | succ n ih =>
    intro idx i h
    simp only [findEligibleIdx] at h
    cases hg : subs[idx % subs.length]? with
    | none => rw [hg] at h; exact absurd h (by simp)
    | some s =>
      rw [hg] at h
      dsimp only at h
      by_cases he : eligibleFor mask s = true
      · rw [if_pos he] at h
        injection h with h
        exact ⟨s, h ▸ hg, he⟩
      · rw [if_neg he] at h
        exact ih _ _ h

theorem findEligibleIdx_none (subs : List Subscriber) (mask : Nat)
    (hn : 0 < subs.length) :
    ∀ (fuel idx : Nat), findEligibleIdx subs mask idx fuel = none →
      ∀ k, k < fuel → ∀ s, subs[(idx + k) % subs.length]? = some s →
        eligibleFor mask s = false := by
  intro fuel
  induction fuel with
  | zero =>
    intro idx _ k hk
    exact absurd hk (by omega)
  | succ n ih =>
    intro idx h k hk s hs
    simp only [findEligibleIdx] at h
    have hidx : idx % subs.length < subs.length := Nat.mod_lt _ hn
    cases hg : subs[idx % subs.length]? with
    | none =>
      rw [List.getElem?_eq_getElem hidx] at hg
      exact absurd hg (by simp)
    | some s0 =>
      rw [hg] at h
      dsimp only at h
      by_cases he : eligibleFor mask s0 = true
      · rw [if_pos he] at h
        exact absurd h (by simp)
      · rw [if_neg he] at h
        cases k with
        | zero =>
          rw [Nat.add_zero] at hs
          have hss : s0 = s := by
            have := hg.symm.trans hs
            injection this
          rw [← hss]
          simpa using he
        | succ k2 =>
          have harg : idx + (k2 + 1) = (idx + 1) + k2 := by omega
          rw [harg] at hs
          exact ih (idx + 1) h k2 (by omega) s hs

theorem mod_cover (n idx j : Nat) (hn : 0 < n) (hj : j < n) :
    ∃ k, k < n ∧ (idx + k) % n = j := by
  have hr : idx % n < n := Nat.mod_lt _ hn
  by_cases hle : idx % n ≤ j
  · refine ⟨j - idx % n, by omega, ?_⟩
    rw [Nat.add_mod, Nat.mod_eq_of_lt (show j - idx % n < n by omega)]
    have harg : idx % n + (j - idx % n) = j := by omega
    rw [harg, Nat.mod_eq_of_lt hj]
  · refine ⟨n - idx % n + j, by omega, ?_⟩
    rw [Nat.add_mod, Nat.mod_eq_of_lt (show n - idx % n + j < n by omega)]
    have harg : idx % n + (n - idx % n + j) = n + j := by omega
    rw [harg, Nat.add_mod_left, Nat.mod_eq_of_lt hj]

def diC4 : DescriptorInfo := ⟨3, .multiple, [⟨9, 1, 1⟩], 0, true⟩

def evC4 : KEv := ⟨.read, true, false, 0⟩

def stC4 : WorkerState := ⟨[(4, diC4)], [], false⟩

/-- C4 counterexample: a tracked listening descriptor with one token-holding
IN subscriber receives a READ event with EOF and zero fflags; the decoded
mask is CLOSE only, which is neither an error mask nor zero, yet no
subscriber has a requested mask intersecting it, so `next_notify_port` returns
port 0 and the dispatch posts to port 0 — the assertion that the returned
port is non-zero fails. -/
theorem nextNotifyNoEligible :
    MaskInv diC4 ∧ diC4.tracked = true ∧
    GetEvents diC4.IsListeningSocket evC4 = some (1 <<< kCloseEvent) ∧
    (1 <<< kCloseEvent) &&& (1 <<< kErrorEvent) = 0 ∧
    (1 <<< kCloseEvent : Nat) ≠ 0 ∧
    (diC4.NextNotifyDartPort (1 <<< kCloseEvent)).1 = 0 ∧
    (dispatchReadiness ⟨evC4, some 3, true⟩ 3 stC4).2.1 =
      [Action.post 0 (1 <<< kCloseEvent)] := by
  decide

/-- C4 amended: whenever the dispatched event mask intersects the requested
mask of some token-holding subscriber (for a multiple descriptor), or the
single descriptor is tracked, `next_notify_port` returns a non-zero port
belonging to a subscriber with a positive token balance; for an event mask
intersecting the interest of no subscriber (such as a pure CLOSE mask on a
listening descriptor) it returns port 0 instead and the non-zero assertion
fails. -/
theorem nextNotifyEligible :
    ∀ (di : DescriptorInfo) (mask : Nat),
      (∀ s ∈ di.subscribers, s.port ≠ 0) →
      (di.kind = .single → di.subscribers.length ≤ 1 ∧ di.Mask ≠ 0) →
      (di.kind = .multiple → ∃ s ∈ di.subscribers, eligibleFor mask s = true) →
      (di.NextNotifyDartPort mask).1 ≠ 0 ∧
      ∃ s ∈ di.subscribers, s.port = (di.NextNotifyDartPort mask).1 ∧ 0 < s.tokens := by
  intro di mask hports hsingle hmultiple
  cases hkind : di.kind with
  | single =>
    obtain ⟨hlen, hmask⟩ := hsingle hkind
    cases hsubs : di.subscribers with
    | nil =>
      exfalso
      apply hmask
      unfold DescriptorInfo.Mask
      rw [hsubs]
      simp
    | cons s t =>
      cases t with
      | cons s2 t2 => rw [hsubs] at hlen; simp at hlen
      | nil =>
        have htok : 0 < s.tokens := by
          by_contra hc
          apply hmask
          unfold DescriptorInfo.Mask
          rw [hsubs]
          simp [Nat.le_zero.1 (Nat.not_lt.1 hc)]
        have hmem : s ∈ di.subscribers := by rw [hsubs]; exact List.mem_cons_self _ _
        have hres : (di.NextNotifyDartPort mask).1 = s.port := by
          simp [DescriptorInfo.NextNotifyDartPort, hkind, hsubs]
        rw [hres]
        exact ⟨hports s hmem, ⟨s, List.mem_cons_self _ _, rfl, htok⟩⟩
  | multiple =>
    obtain ⟨s, hsmem, hsel⟩ := hmultiple hkind
    have hn : 0 < di.subscribers.length :=
      List.length_pos.2 (List.ne_nil_of_mem hsmem)
    obtain ⟨j, hj⟩ := List.mem_iff_getElem?.1 hsmem
    have hjlt : j < di.subscribers.length := by
      rcases List.getElem?_eq_some.1 hj with ⟨hlt, _⟩
      exact hlt
    obtain ⟨k, hk, hcov⟩ := mod_cover di.subscribers.length di.nextIdx j hn hjlt
    cases hf : findEligibleIdx di.subscribers mask di.nextIdx di.subscribers.length with
    | none =>
      exfalso
      have hbad := findEligibleIdx_none di.subscribers mask hn _ _ hf k hk s
        (by rw [hcov]; exact hj)
      rw [hsel] at hbad
      exact Bool.noConfusion hbad
    | some i =>
      obtain ⟨s2, hs2, hel2⟩ := findEligibleIdx_sound di.subscribers mask _ _ _ hf
      have hmem2 : s2 ∈ di.subscribers := by
        rcases List.getElem?_eq_some.1 hs2 with ⟨hlt, heq⟩
        exact heq ▸ List.getElem_mem hlt
      have htok2 : 0 < s2.tokens := by
        simp only [eligibleFor, Bool.and_eq_true, decide_eq_true_eq] at hel2
        exact hel2.1
      have hres : (di.NextNotifyDartPort mask).1 = s2.port := by
        simp [DescriptorInfo.NextNotifyDartPort, hkind, hf, hs2]
      rw [hres]
      exact ⟨hports s2 hmem2, ⟨s2, hmem2, rfl, htok2⟩⟩

/-- Witness for C4 amended: an eligible IN subscriber is chosen. -/
theorem nextNotifyEligible_witness :
    (DescriptorInfo.NextNotifyDartPort ⟨3, .multiple, [⟨9, 1, 1⟩], 0, true⟩ 1).1 ≠ 0 := by
  have h := nextNotifyEligible ⟨3, .multiple, [⟨9, 1, 1⟩], 0, true⟩ 1
    (by decide) (fun h => nomatch h) (fun _ => ⟨⟨9, 1, 1⟩, by decide, by decide⟩)
  exact h.1

/-! ### C3: invariant I1 is re-established by every operation. -/

theorem maskInv_iff (di : DescriptorInfo) (h : MaskInv di) :
    di.tracked = true ↔ di.Mask ≠ 0 := by
  unfold MaskInv at h
  rw [h]
  exact bne_iff_ne

theorem addToKqueue_maskInv (success : Bool) (di : DescriptorInfo)
    (htr : di.tracked = false) (hm : di.Mask ≠ 0) :
    MaskInv (AddToKqueue success di).1 := by
  unfold MaskInv AddToKqueue
  cases success
  · simp only [Bool.false_eq_true, if_false]
    rw [NotifyAllDartPorts_tracked, NotifyAllDartPorts_mask, htr]
    rfl
  · simp only [if_true]
    show true = (di.Mask != 0)
    exact (bne_iff_ne.2 hm).symm

theorem update_maskInv (success : Bool) (old : Nat) (di : DescriptorInfo)
    (h : di.tracked = true ↔ old ≠ 0) :
    MaskInv (UpdateKQueueInstance success old di).1 := by
  simp only [UpdateKQueueInstance]
  split_ifs with h1 h2 h3
  · unfold MaskInv
    rw [RemoveFromKqueue_tracked, RemoveFromKqueue_mask, h1.2]
    rfl
  · have htr : di.tracked = false := by
      cases hdit : di.tracked
      · rfl
      · exact absurd h2.1 (h.1 hdit)
    exact addToKqueue_maskInv success di htr h2.2
  · have h4 := RemoveFromKqueue_tracked di
    have h5 := RemoveFromKqueue_mask di
    exact addToKqueue_maskInv success _ h4 (h5 ▸ h3.2.1)
  · unfold MaskInv
    by_cases hold : old = 0
    · have hm : di.Mask = 0 := by
        by_contra hmm
        exact h2 ⟨hold, hmm⟩
      have htr : di.tracked = false := by
        cases hdit : di.tracked
        · rfl
        · exact absurd hold (h.1 hdit)
      rw [htr, hm]
      rfl
    · have hm : di.Mask ≠ 0 := fun hmm => h1 ⟨hold, hmm⟩
      rw [h.2 hold]
      exact (bne_iff_ne.2 hm).symm

theorem SetPortAndMask_tracked (di : DescriptorInfo) (p : Int) (m : Nat) :
    (di.SetPortAndMask p m).tracked = di.tracked := by
  unfold DescriptorInfo.SetPortAndMask
  cases di.kind
  · rfl
  · dsimp only
    split <;> rfl

theorem ReturnTokens_tracked (di : DescriptorInfo) (p : Int) (n : Nat) :
    (di.ReturnTokens p n).tracked = di.tracked := rfl

theorem RemovePort_tracked (di : DescriptorInfo) (p : Int) :
    (di.RemovePort p).tracked = di.tracked := rfl

theorem NextNotifyDartPort_tracked (di : DescriptorInfo) (m : Nat) :
    (di.NextNotifyDartPort m).2.tracked = di.tracked := by
  unfold DescriptorInfo.NextNotifyDartPort
  cases di.kind
  · dsimp only
    cases di.subscribers.head? <;> rfl
  · dsimp only
    cases findEligibleIdx di.subscribers m di.nextIdx di.subscribers.length with
    | none => rfl
    | some i =>
      dsimp only
      cases di.subscribers[i]? <;> rfl

theorem mapInv_insert (m : SocketMap) (k : Int) (di : DescriptorInfo)
    (h1 : MapInv m) (h2 : MaskInv di) : MapInv (mapInsert m k di) := by
  intro e he
  unfold mapInsert at he
  rcases List.mem_cons.1 he with rfl | he
  · exact h2
  · exact h1 e (List.mem_of_mem_filter he)

theorem mapInv_erase (m : SocketMap) (k : Int) (h : MapInv m) :
    MapInv (mapErase m k) :=
  fun e he => h e (List.mem_of_mem_filter he)

theorem mapInv_find (m : SocketMap) (k : Int) (di : DescriptorInfo)
    (h : MapInv m) (hf : mapFind m k = some di) : MaskInv di := by
  rcases mapFind_some m k di hf with ⟨e, hem, _, hdi⟩
  exact hdi ▸ h e hem

theorem maskInv_new (fd : Int) (isL : Bool) : MaskInv (newDescriptorInfo fd isL) := by
  unfold MaskInv newDescriptorInfo
  cases isL <;> simp [DescriptorInfo.Mask]

theorem getDescriptorInfo_inv (m : SocketMap) (fd : Int) (isL : Bool)
    (h : MapInv m) :
    MaskInv (GetDescriptorInfo m fd isL).1 ∧ MapInv (GetDescriptorInfo m fd isL).2 := by
  unfold GetDescriptorInfo
  cases hf : mapFind m (GetHashmapKeyFromFd fd) with
  | some di => exact ⟨mapInv_find _ _ _ h hf, h⟩
  | none => exact ⟨maskInv_new fd isL, mapInv_insert _ _ _ h (maskInv_new fd isL)⟩

theorem closeCommandStep_mapInv (port iso : Int) (cs aOk sig : Bool)
    (di : DescriptorInfo) (m1 : SocketMap)
    (hdi : MaskInv di) (hm1 : MapInv m1) :
    MapInv (closeCommandStep port iso cs aOk sig di m1).1 := by
  simp only [closeCommandStep]
  have hinv : ∀ di1 : DescriptorInfo, di1.tracked = di.tracked →
      MaskInv (UpdateKQueueInstance aOk di.Mask di1).1 := fun di1 ht =>
    update_maskInv _ _ _ (by rw [ht]; exact maskInv_iff di hdi)
  split_ifs <;>
    first
      | exact mapInv_erase _ _ hm1
      | exact mapInv_insert _ _ _ hm1 (hinv _ (RemovePort_tracked di port))

theorem handleInterruptMessage_mapInv (msg : InterruptMsg) (st : WorkerState)
    (h : MapInv st.socketMap) :
    MapInv (handleInterruptMessage msg st).1.socketMap := by
  unfold handleInterruptMessage
  cases msg.id with
  | timer => exact h
  | shutdownId => exact h
  | socket fd iso cs aOk =>
    dsimp only
    by_cases hfd : (fd == (-1 : Int)) = true
    · rw [if_pos hfd]
      exact h
    · rw [if_neg hfd]
      obtain ⟨hdi, hm1⟩ :=
        getDescriptorInfo_inv st.socketMap fd (IS_LISTENING_SOCKET msg.data.toNat) h
      split_ifs with hc1 hc2 hc3 hc4 hc5
      · exact hm1
      · exact hm1
      · exact closeCommandStep_mapInv _ _ _ _ _ _ _ hdi hm1
      · refine mapInv_insert _ _ _ hm1 (update_maskInv _ _ _ ?_)
        rw [ReturnTokens_tracked]
        exact maskInv_iff _ hdi
      · refine mapInv_insert _ _ _ hm1 (update_maskInv _ _ _ ?_)
        rw [SetPortAndMask_tracked]
        exact maskInv_iff _ hdi
      · exact h

theorem processMessages_mapInv :
    ∀ (msgs : List InterruptMsg) (st : WorkerState), MapInv st.socketMap →
      MapInv (processMessages msgs st).1.socketMap := by
  intro msgs
  induction msgs with
  | nil => intro st h; exact h
  | cons m rest ih =>
    intro st h
    simp only [processMessages]
    split
    · exact ih _ (handleInterruptMessage_mapInv m st h)
    · exact handleInterruptMessage_mapInv m st h

theorem handleInterruptFd_mapInv (bytes : Nat) (msgs : List InterruptMsg)
    (st : WorkerState) (h : MapInv st.socketMap) :
    MapInv (HandleInterruptFd bytes msgs st).1.socketMap :=
  processMessages_mapInv _ st h

theorem dispatchReadiness_mapInv (e : BatchEvent) (difd : Int) (st : WorkerState)
    (h : MapInv st.socketMap) :
    MapInv (dispatchReadiness e difd st).1.socketMap := by
  unfold dispatchReadiness
  cases hf : mapFind st.socketMap (GetHashmapKeyFromFd difd) with
  | none => exact h
  | some di =>
    have hdi := mapInv_find _ _ _ h hf
    dsimp only
    cases GetEvents di.IsListeningSocket e.ev with
    | none => exact h
    | some em =>
      dsimp only
      split_ifs
      · refine mapInv_insert _ _ _ h (update_maskInv _ _ _ ?_)
        rw [NotifyAllDartPorts_tracked]
        exact maskInv_iff _ hdi
      · refine mapInv_insert _ _ _ h (update_maskInv _ _ _ ?_)
        rw [NextNotifyDartPort_tracked]
        exact maskInv_iff _ hdi
      · exact h

theorem handleEventsLoop_mapInv (bytes : Nat) (msgs : List InterruptMsg) :
    ∀ (events : List BatchEvent) (st : WorkerState) (seen : Bool),
      MapInv st.socketMap →
      MapInv (handleEventsLoop bytes msgs events st seen).1.socketMap := by
  intro events
  induction events with
  | nil =>
    intro st seen h
    simp only [handleEventsLoop]
    split
    · exact handleInterruptFd_mapInv bytes msgs st h
    · exact h
  | cons e rest ih =>
    intro st seen h
    simp only [handleEventsLoop]
    split
    · exact h
    · split
      · exact ih _ _ h
      · split
        · exact ih _ _ (dispatchReadiness_mapInv _ _ _ h)
        · exact dispatchReadiness_mapInv _ _ _ h

/-- C3: invariant I1 — a descriptor is tracked by the kqueue iff its
effective mask is non-zero — holds for every descriptor in the map after
every interrupt command (SET_MASK, RETURN_TOKEN, CLOSE, with the kernel
verdict on any re-registration quantified, covering failed adds) and after
every readiness batch dispatch, whenever it held before. -/
theorem workerOpsPreserveMaskInv :
    (∀ (msg : InterruptMsg) (st : WorkerState), MapInv st.socketMap →
      MapInv (handleInterruptMessage msg st).1.socketMap) ∧
    (∀ (events : List BatchEvent) (bytes : Nat) (msgs : List InterruptMsg)
        (st : WorkerState), MapInv st.socketMap →
      MapInv (HandleEvents events bytes msgs st).1.socketMap) :=
  ⟨handleInterruptMessage_mapInv,
   fun events bytes msgs st h => handleEventsLoop_mapInv bytes msgs events st false h⟩

/-- Witness for C3: a SET_MASK message on a one-descriptor map and a
readiness batch on the same map. -/
theorem workerOpsPreserveMaskInv_witness :
    MapInv (handleInterruptMessage
      ⟨.socket 5 0 false true, 7, (5 * 4294967296 + 1 : Int)⟩
      ⟨[(6, ⟨5, .single, [⟨7, 1, 1⟩], 0, true⟩)], [], false⟩).1.socketMap ∧
    MapInv (HandleEvents [⟨⟨.read, false, false, 0⟩, some 5, true⟩] 24
      [⟨.shutdownId, 0, 0⟩]
      ⟨[(6, ⟨5, .single, [⟨7, 1, 1⟩], 0, true⟩)], [], false⟩).1.socketMap :=
  ⟨workerOpsPreserveMaskInv.1 _ _ (by decide),
   workerOpsPreserveMaskInv.2 _ _ _ _ (by decide)⟩

/-! ### C1: destruction of a descriptor on the CLOSE of its last
subscriber. -/

theorem update_mask_zero (success : Bool) (old : Nat) (di : DescriptorInfo)
    (h : di.Mask = 0) :
    UpdateKQueueInstance success old di =
      if old ≠ 0 then RemoveFromKqueue di else (di, []) := by
  simp only [UpdateKQueueInstance]
  split_ifs with h1 h2 h3 <;> simp_all

theorem RemovePort_fd (di : DescriptorInfo) (p : Int) :
    (di.RemovePort p).fd = di.fd := rfl

theorem RemovePort_listening (di : DescriptorInfo) (p : Int) :
    (di.RemovePort p).IsListeningSocket = di.IsListeningSocket := rfl

theorem RemoveFromKqueue_listening (di : DescriptorInfo) :
    (RemoveFromKqueue di).1.IsListeningSocket = di.IsListeningSocket := by
  unfold DescriptorInfo.IsListeningSocket
  rw [RemoveFromKqueue_kind]

theorem maskInv_mask_zero (di : DescriptorInfo) (hinv : MaskInv di)
    (htr : di.tracked = false) : di.Mask = 0 := by
  unfold MaskInv at hinv
  rw [htr] at hinv
  simpa using hinv.symm

/-- The CLOSE step, characterized: the effect trace is the optional
signal-handler clear, then the kqueue deletions exactly when the descriptor
was tracked, then the fd closes and a single DESTROYED post; the descriptor
is erased from the map except for a listening descriptor whose registry
verdict is negative, which is kept. -/
theorem closeCommandStep_spec (p iso : Int) (cs aOk sig : Bool)
    (di : DescriptorInfo) (m1 : SocketMap)
    (hinv : MaskInv di) (hp : p ≠ 0) (hrm : (di.RemovePort p).Mask = 0) :
    (closeCommandStep p iso cs aOk sig di m1).2 =
      (if sig then [Action.clearSignalHandler di.fd iso] else []) ++
      (if di.tracked then
        [Action.kq (.del di.fd .read), Action.kq (.del di.fd .write)] else []) ++
      (if di.IsListeningSocket = true ∧ cs = false then
        [Action.socketCloseFd di.fd, Action.post p (1 <<< kDestroyedEvent)]
       else
        [Action.diClose di.fd, Action.socketCloseFd di.fd,
         Action.post p (1 <<< kDestroyedEvent)]) ∧
    (closeCommandStep p iso cs aOk sig di m1).1 =
      (if di.IsListeningSocket = true ∧ cs = false then
        mapInsert m1 (GetHashmapKeyFromFd di.fd)
          (UpdateKQueueInstance aOk di.Mask (di.RemovePort p)).1
       else mapErase m1 (GetHashmapKeyFromFd di.fd)) := by
  have hpb : (p != 0) = true := bne_iff_ne.2 hp
  have hu := update_mask_zero aOk di.Mask (di.RemovePort p) hrm
  cases htr : di.tracked with
  | true =>
    have hmask : di.Mask ≠ 0 := (maskInv_iff di hinv).1 htr
    have htr1 : (di.RemovePort p).tracked = true := htr
    have hu2 : UpdateKQueueInstance aOk di.Mask (di.RemovePort p) =
        ({ di.RemovePort p with tracked := false },
         [Action.kq (.del di.fd .read), Action.kq (.del di.fd .write)]) := by
      rw [hu, if_pos hmask]
      unfold RemoveFromKqueue
      rw [if_pos htr1]
      rfl
    simp only [closeCommandStep, hpb, if_true, hu2]
    cases hk : di.kind <;> cases cs <;> cases sig <;>
      simp_all [DescriptorInfo.IsListeningSocket, DescriptorInfo.RemovePort]
  | false =>
    have hmask : di.Mask = 0 := maskInv_mask_zero di hinv htr
    have hu2 : UpdateKQueueInstance aOk di.Mask (di.RemovePort p) =
        (di.RemovePort p, []) := by
      rw [hu, if_neg (fun h => h hmask)]
    simp only [closeCommandStep, hpb, if_true, hu2]
    cases hk : di.kind <;> cases cs <;> cases sig <;>
      simp_all [DescriptorInfo.IsListeningSocket, DescriptorInfo.RemovePort]

/-- C1: a CLOSE command for the last subscriber of a descriptor (the
effective mask becomes 0 after removing the requesting port) makes the
worker unregister the fd from the kqueue (the EV_DELETE records appear in
the trace whenever the descriptor was tracked), remove the descriptor from
the map, close the fd via the socket object, and post exactly one DESTROYED
event to the requesting port; for a listening descriptor the destruction
(map removal and descriptor close) happens exactly when the registry
reports `close_safe`, and the DESTROYED post happens in every case. -/
theorem closeLastSubscriberDestroys :
    ∀ (st : WorkerState) (fd p iso dta : Int) (di : DescriptorInfo) (cs aOk : Bool),
      mapFind st.socketMap (GetHashmapKeyFromFd fd) = some di →
      MaskInv di →
      p ≠ 0 →
      (di.RemovePort p).Mask = 0 →
      fd ≠ -1 →
      IS_COMMAND dta.toNat kCloseCommand = true →
      (let r := handleInterruptMessage ⟨.socket fd iso cs aOk, p, dta⟩ st
       (di.IsListeningSocket = false →
         mapFind r.1.socketMap (GetHashmapKeyFromFd di.fd) = none ∧
         Action.diClose di.fd ∈ r.2.1 ∧
         Action.socketCloseFd di.fd ∈ r.2.1 ∧
         r.2.1.count (Action.post p (1 <<< kDestroyedEvent)) = 1 ∧
         (di.tracked = true →
           Action.kq (.del di.fd .read) ∈ r.2.1 ∧ Action.kq (.del di.fd .write) ∈ r.2.1)) ∧
       (di.IsListeningSocket = true →
         ((mapFind r.1.socketMap (GetHashmapKeyFromFd di.fd) = none) ↔ cs = true) ∧
         Action.socketCloseFd di.fd ∈ r.2.1 ∧
         r.2.1.count (Action.post p (1 <<< kDestroyedEvent)) = 1 ∧
         (cs = true → Action.diClose di.fd ∈ r.2.1) ∧
         (di.tracked = true →
           Action.kq (.del di.fd .read) ∈ r.2.1 ∧ Action.kq (.del di.fd .write) ∈ r.2.1))) := by
  intro st fd p iso dta di cs aOk hfind hinv hp hrm hfd hcmd
  have hne : (fd == (-1 : Int)) = false := beq_eq_false_iff_ne.2 hfd
  have hct : commandTag dta.toNat = kCloseCommand := by
    unfold IS_COMMAND at hcmd
    exact beq_iff_eq.1 hcmd
  have hc1 : IS_COMMAND dta.toNat kShutdownReadCommand = false := by
    unfold IS_COMMAND
    rw [hct]
    rfl
  have hc2 : IS_COMMAND dta.toNat kShutdownWriteCommand = false := by
    unfold IS_COMMAND
    rw [hct]
    rfl
  have hg : GetDescriptorInfo st.socketMap fd (IS_LISTENING_SOCKET dta.toNat) =
      (di, st.socketMap) := by
    unfold GetDescriptorInfo
    rw [hfind]
  have hred : handleInterruptMessage ⟨.socket fd iso cs aOk, p, dta⟩ st =
      ({ st with socketMap :=
          (closeCommandStep p iso cs aOk (IS_SIGNAL_SOCKET dta.toNat) di st.socketMap).1 },
       (closeCommandStep p iso cs aOk (IS_SIGNAL_SOCKET dta.toNat) di st.socketMap).2,
       true) := by
    simp only [handleInterruptMessage, hne, Bool.false_eq_true, if_false, hg, hc1, hc2,
      hcmd, if_true]
  obtain ⟨hacts, hmap⟩ := closeCommandStep_spec p iso cs aOk (IS_SIGNAL_SOCKET dta.toNat)
    di st.socketMap hinv hp hrm
  dsimp only
  rw [hred]
  dsimp only
  constructor
  · intro hL
    have hcond : ¬(di.IsListeningSocket = true ∧ cs = false) := by
      rintro ⟨h1, _⟩
      rw [hL] at h1
      exact Bool.noConfusion h1
    rw [if_neg hcond] at hacts hmap
    refine ⟨?_, ?_, ?_, ?_, ?_⟩
    · rw [hmap]
      exact mapFind_erase _ _
    · rw [hacts]; simp
    · rw [hacts]; simp
    · rw [hacts]
      cases IS_SIGNAL_SOCKET dta.toNat <;> cases di.tracked <;>
        simp [List.count_append, List.count_cons]
    · intro htr
      rw [hacts]
      simp [htr]
  · intro hL
    cases cs with
    | false =>
      have hcond2 : di.IsListeningSocket = true ∧ (false : Bool) = false := ⟨hL, rfl⟩
      rw [if_pos hcond2] at hacts hmap
      refine ⟨?_, ?_, ?_, ?_, ?_⟩
      · rw [hmap]
        constructor
        · intro hnone
          rw [mapFind_insert] at hnone
          exact absurd hnone (by simp)
        · intro h1
          exact Bool.noConfusion h1
      · rw [hacts]; simp
      · rw [hacts]
        cases IS_SIGNAL_SOCKET dta.toNat <;> cases di.tracked <;>
          simp [List.count_append, List.count_cons]
      · intro h1
        exact Bool.noConfusion h1
      · intro htr
        rw [hacts]
        simp [htr]
    | true =>
      have hcond : ¬(di.IsListeningSocket = true ∧ (true : Bool) = false) := by
        rintro ⟨_, h2⟩
        exact Bool.noConfusion h2
      rw [if_neg hcond] at hacts hmap
      refine ⟨?_, ?_, ?_, ?_, ?_⟩
      · rw [hmap]
        exact ⟨fun _ => rfl, fun _ => mapFind_erase _ _⟩
      · rw [hacts]; simp
      · rw [hacts]
        cases IS_SIGNAL_SOCKET dta.toNat <;> cases di.tracked <;>
          simp [List.count_append, List.count_cons]
      · intro _
        rw [hacts]; simp
      · intro htr
        rw [hacts]
        simp [htr]

def diC1 : DescriptorInfo := ⟨5, .single, [⟨7, 1, 1⟩], 0, true⟩

def stC1 : WorkerState := ⟨[(6, diC1)], [], false⟩

/-- Witness for C1: closing the sole subscriber of a concrete tracked
single descriptor removes it from the map and posts one DESTROYED event. -/
theorem closeLastSubscriberDestroys_witness :
    mapFind (handleInterruptMessage ⟨.socket 5 0 false true, 7, 4294967296⟩ stC1).1.socketMap
      (GetHashmapKeyFromFd diC1.fd) = none ∧
    (handleInterruptMessage ⟨.socket 5 0 false true, 7, 4294967296⟩ stC1).2.1.count
      (Action.post 7 (1 <<< kDestroyedEvent)) = 1 := by
  have h := closeLastSubscriberDestroys stC1 5 7 0 4294967296 diC1 false true
    (by decide) (by decide) (by decide) (by decide) (by decide) (by decide)
  have h2 := h.1 (by decide)
  exact ⟨h2.1, h2.2.2.2.1⟩

end EventHandler
